import Mathlib

/-!
Verification development for the code-intelligence analyzer
(`intelligence_analyzer.py`, class `CodeIntelligenceAnalyzer`).

The Python module is shallowly embedded here.  Source files are modelled as
`(path, content, parsed)` triples, where `parsed` is the outcome of the
external parser (`ast.parse`): `some tree` on success, `none` on a
`SyntaxError`.  The syntax tree is modelled as a rose tree whose node kinds
are exactly the `ast` node classes the analyzer discriminates on
(`FunctionDef`, `ClassDef`, `For`, `While`, `If`, `Try`, `With`, `Return`,
`Raise`, `Call`); every other node class is `otherNode`.  A `Call` node
additionally records the shape of its `func` attribute (`ast.Name`,
`ast.Attribute`, or anything else); the sub-expressions of `func` and the
arguments are ordinary children of the `Call` node, as they are for
`ast.walk` / `generic_visit`.

Python-semantics notes used by the embedding:
* `ast.walk` is breadth-first (its implementation pops from a deque and
  extends with the children); it is modelled by `walk` below.
* `ast.NodeVisitor.generic_visit` recursion is depth-first pre-order.
* A `dict` preserves insertion order; updating an existing key keeps its
  position.  Association lists with `dictInsert` model this.
* `networkx` graphs define `__len__` (the number of nodes) and no
  `__bool__`, so Python truth-testing of a graph (`if self.graph:`) is
  `False` both for `None` and for a graph with zero nodes.
* `list.sort(key=..., reverse=True)` is a stable descending sort; it is
  modelled by `List.insertionSort` with the corresponding total relation,
  which is extensionally the same list.
* Python `/` on integers is exact enough for the quantities appearing here
  to be modelled by `ℚ`; `ZeroDivisionError` is modelled by `pyDiv`
  returning an `Except` error, and `round(x, 2)` by `pyRound2`
  (round-half-to-even, as Python's `round`).
-/

namespace CodeSensei

/-- Shape of the `func` attribute of an `ast.Call` node, as discriminated by
the analyzer (`ast.Name` with its `id`, `ast.Attribute` with its `attr`,
anything else). -/
inductive CallTarget where
  | nameT (id : String)
  | attrT (attrName : String)
  | otherT
deriving DecidableEq, Repr

/-- Node classes of the Python `ast` that the analyzer discriminates on.
`functionDef` and `classDef` carry `name` and `lineno`. -/
inductive NodeKind where
  | functionDef (name : String) (line : Nat)
  | classDef (name : String) (line : Nat)
  | forStmt
  | whileStmt
  | ifStmt
  | tryStmt
  | withStmt
  | returnStmt
  | raiseStmt
  | callExpr (target : CallTarget)
  | otherNode
deriving DecidableEq, Repr

mutual
/-- A Python syntax tree: a node kind together with its child list
(everything `ast.iter_child_nodes` would yield, in order). -/
inductive Tree where
  | node : NodeKind → TreeList → Tree
deriving DecidableEq, Repr
/-- Children of a tree node (a specialized list, so that all recursions are
structural). -/
inductive TreeList where
  | nil : TreeList
  | cons : Tree → TreeList → TreeList
deriving DecidableEq, Repr
end

mutual
/-- Number of nodes of a tree (each node counted once). -/
def sizeT : Tree → Nat
  | .node _ c => 1 + sizeL c
/-- Number of nodes of a forest. -/
def sizeL : TreeList → Nat
  | .nil => 0
  | .cons t ts => sizeT t + sizeL ts
end

/-- Convert a `TreeList` to an ordinary list. -/
def TreeList.toList : TreeList → List Tree
  | .nil => []
  | .cons t ts => t :: ts.toList

/-- Build a `TreeList` from an ordinary list. -/
def TreeList.ofList : List Tree → TreeList
  | [] => .nil
  | t :: ts => .cons t (TreeList.ofList ts)

/-- The kind of a node. -/
def Tree.kind : Tree → NodeKind
  | .node k _ => k

/-- The children of a node. -/
def Tree.children : Tree → TreeList
  | .node _ c => c

/-- Total node count of a list of trees. -/
def sizeList (l : List Tree) : Nat := (l.map sizeT).sum

/-- Worker for `walk`: breadth-first traversal of a worklist, with enough
fuel to finish (structural in the fuel, so it evaluates by `rfl`). -/
def walkAux : Nat → List Tree → List Tree
  | 0, _ => []
  | _ + 1, [] => []
  | fuel + 1, t :: rest => t :: walkAux fuel (rest ++ t.children.toList)

/-- Model of `ast.walk(t)`: the node itself and all descendants, in
breadth-first order. -/
def walk (t : Tree) : List Tree := walkAux (sizeT t) [t]

mutual
/-- Depth-first pre-order listing of a tree (used to reason about `walk`,
which is a permutation of it). -/
def preorder : Tree → List Tree
  | .node k c => .node k c :: preorderL c
/-- Depth-first pre-order listing of a forest. -/
def preorderL : TreeList → List Tree
  | .nil => []
  | .cons t ts => preorder t ++ preorderL ts
end

theorem sizeL_toList : ∀ ts : TreeList, sizeList ts.toList = sizeL ts
  | .nil => rfl
  | .cons t ts => by
    have ih := sizeL_toList ts
    simp [TreeList.toList, sizeList, sizeL] at ih ⊢
    omega

theorem sizeList_append (l₁ l₂ : List Tree) :
    sizeList (l₁ ++ l₂) = sizeList l₁ + sizeList l₂ := by
  simp [sizeList]

theorem sizeT_pos (t : Tree) : 1 ≤ sizeT t := by
  cases t with
  | node k c => simp [sizeT]

theorem preorderL_eq_bind : ∀ ts : TreeList, preorderL ts = ts.toList.flatMap preorder
  | .nil => rfl
  | .cons t ts => by
    have ih := preorderL_eq_bind ts
    simp [preorderL, TreeList.toList, ih]

/-- With enough fuel, the breadth-first walk of a worklist is a permutation
of the concatenation of the pre-order listings. -/
theorem walkAux_perm :
    ∀ (fuel : Nat) (l : List Tree), sizeList l ≤ fuel →
      (walkAux fuel l).Perm (l.flatMap preorder) := by
  intro fuel
  induction fuel with
  | zero =>
    intro l h
    cases l with
    | nil => simp [walkAux]
    | cons t rest =>
      exfalso
      have h1 := sizeT_pos t
      simp [sizeList] at h
      omega
  | succ fuel ih =>
    intro l h
    cases l with
    | nil => simp [walkAux]
    | cons t rest =>
      cases t with
      | node k c =>
        have hsz : sizeList (rest ++ (TreeList.toList c)) ≤ fuel := by
          rw [sizeList_append, sizeL_toList]
          simp [sizeList, sizeT] at h ⊢
          omega
        have h1 := ih _ hsz
        have h2 : (rest ++ TreeList.toList c).flatMap preorder =
            rest.flatMap preorder ++ preorderL c := by
          rw [List.flatMap_append, preorderL_eq_bind]
        have h3 : (rest.flatMap preorder ++ preorderL c).Perm
            (preorderL c ++ rest.flatMap preorder) := List.perm_append_comm
        have h4 : ((Tree.node k c :: rest).flatMap preorder) =
            Tree.node k c :: (preorderL c ++ rest.flatMap preorder) := by
          simp [List.flatMap_cons, preorder]
        have h5 : (walkAux (fuel + 1) (Tree.node k c :: rest)) =
            Tree.node k c :: walkAux fuel (rest ++ TreeList.toList c) := by
          simp [walkAux, Tree.children]
        rw [h4, h5]
        exact ((h2 ▸ h1).trans h3).cons _

/-- The walk of a tree is a permutation of its pre-order listing. -/
theorem walk_perm (t : Tree) : (walk t).Perm (preorder t) := by
  have h := walkAux_perm (sizeT t) [t] (by simp [sizeList])
  simpa using h

/-! ### String helpers (modelled on character lists so they evaluate) -/

/-- Model of `str.startswith(p)`. -/
def strStartsWith (s p : String) : Bool := p.toList.isPrefixOf s.toList

/-- Model of Python's `p in s` substring test. -/
def strContainsSub (s p : String) : Bool := decide (p.toList <:+: s.toList)

/-- Model of `str.lower()`. -/
def strToLower (s : String) : String := ⟨s.toList.map Char.toLower⟩

/-- Model of `str.endswith(p)`. -/
def strEndsWith (s p : String) : Bool := p.toList.isSuffixOf s.toList

/-! ### Python arithmetic helpers -/

/-- Model of Python's `/` (true division) where the denominator is an
`int`, as it is at every division site of this module: raises
`ZeroDivisionError` exactly when the denominator is zero, otherwise exact
division (the float result is modelled by `ℚ`). -/
def pyDiv (a : ℚ) (b : Nat) : Except String ℚ :=
  if b = 0 then .error "ZeroDivisionError" else .ok (a / (b : ℚ))

/-- Model of Python's `round(x, 2)`: round to the nearest multiple of
`1/100`, ties to even. -/
def pyRound2 (q : ℚ) : ℚ :=
  let s := q * 100
  let fl : ℤ := ⌊s⌋
  let frac := s - (fl : ℚ)
  if frac < 1 / 2 then (fl : ℚ) / 100
  else if 1 / 2 < frac then ((fl + 1 : ℤ) : ℚ) / 100
  else (if fl % 2 = 0 then (fl : ℚ) else ((fl + 1 : ℤ) : ℚ)) / 100

/-! ### Pattern extraction (`_extract_patterns` and its `PatternVisitor`) -/

/-- The token contributed by a single visited node in the token-extraction
loop of `PatternVisitor.visit_FunctionDef` (the `if`/`elif` chain over
`ast.For`, `ast.While`, `ast.If`, `ast.Try`, `ast.With`, `ast.Return`,
`ast.Raise`, and `ast.Call` with an `ast.Name` callee). -/
def tokenOf (t : Tree) : Option String :=
  match t.kind with
  | .forStmt => some "FOR_LOOP"
  | .whileStmt => some "WHILE_LOOP"
  | .ifStmt => some "CONDITIONAL"
  | .tryStmt => some "TRY_EXCEPT"
  | .withStmt => some "CONTEXT_MANAGER"
  | .returnStmt => some "RETURN"
  | .raiseStmt => some "RAISE"
  | .callExpr (.nameT id) => some ("CALL:" ++ id)
  | _ => none

/-- The token sequence of a function definition node: one token per matched
construct over the full-subtree `ast.walk` of the node. -/
def patternOf (t : Tree) : List String := (walk t).filterMap tokenOf

/-- One element of `PatternVisitor.patterns`: either a
`function_structure` or a `class_structure` dictionary. -/
inductive PatternEntry where
  | funcStructure (name file : String) (line : Nat) (pattern : List String)
  | classStructure (name file : String) (line : Nat) (methodCount : Nat)
      (hasInit : Bool) (methods : List String)
deriving DecidableEq, Repr

/-- Names of the direct `FunctionDef` children of a class body
(`[n.name for n in node.body if isinstance(n, ast.FunctionDef)]`). -/
def methodNames : TreeList → List String
  | .nil => []
  | .cons t ts =>
    match t.kind with
    | .functionDef nm _ => nm :: methodNames ts
    | _ => methodNames ts

mutual
/-- Model of `PatternVisitor.visit` on one node: `visit_FunctionDef` and
`visit_ClassDef` append their entry and then `generic_visit` the children;
all other nodes just `generic_visit`. -/
def extractVisit (filepath : String) : Tree → List PatternEntry
  | .node (.functionDef nm ln) c =>
    .funcStructure nm filepath ln (patternOf (.node (.functionDef nm ln) c)) ::
      extractVisitL filepath c
  | .node (.classDef nm ln) c =>
    .classStructure nm filepath ln (methodNames c).length
      (decide ("__init__" ∈ methodNames c)) (methodNames c) ::
      extractVisitL filepath c
  | .node _ c => extractVisitL filepath c
/-- Depth-first visit of a forest. -/
def extractVisitL (filepath : String) : TreeList → List PatternEntry
  | .nil => []
  | .cons t ts => extractVisit filepath t ++ extractVisitL filepath ts
end

/-- Model of `CodeIntelligenceAnalyzer._extract_patterns`. -/
def extract_patterns (filepath : String) (tree : Tree) : List PatternEntry :=
  extractVisit filepath tree

/-! ### Pattern frequency, filtering, ranking (`_analyze_patterns` helpers) -/

/-- A `function_structure` entry, viewed as the dictionary
`_detect_anti_patterns` reads (keys `pattern`, `file`, `line`, `name`). -/
structure FuncPatternInfo where
  name : String
  file : String
  line : Nat
  pattern : List String
deriving DecidableEq, Repr

/-- The `function_structure` entries of `all_patterns`
(`[p for p in self.all_patterns if p.get("type") == "function_structure"]`). -/
def funcPatternsOf (allPatterns : List PatternEntry) : List FuncPatternInfo :=
  allPatterns.filterMap fun e =>
    match e with
    | .funcStructure nm f ln pat => some ⟨nm, f, ln, pat⟩
    | .classStructure _ _ _ _ _ _ => none

/-- The `class_structure` entries of `all_patterns`. -/
structure ClassPatternInfo where
  name : String
  file : String
  line : Nat
  methodCount : Nat
  hasInit : Bool
deriving DecidableEq, Repr

/-- The `class_structure` entries of `all_patterns`. -/
def classPatternsOf (allPatterns : List PatternEntry) : List ClassPatternInfo :=
  allPatterns.filterMap fun e =>
    match e with
    | .funcStructure _ _ _ _ => none
    | .classStructure nm f ln mc hi _ => some ⟨nm, f, ln, mc, hi⟩

/-- Model of `collections.Counter` on a list of keys: an association list in
first-occurrence order mapping each distinct key to its multiplicity. -/
def counterOf (l : List (List String)) : List (List String × Nat) :=
  l.foldl
    (fun acc p =>
      if acc.any (fun q => q.1 = p) then
        acc.map fun q => if q.1 = p then (q.1, q.2 + 1) else q
      else acc ++ [(p, 1)])
    []

/-- The denylist `generic` of `_is_meaningful_pattern`. -/
def genericPatterns : List (List String) :=
  [["RETURN"], ["CONDITIONAL"], [], ["CALL:super"]]

/-- Model of `CodeIntelligenceAnalyzer._is_meaningful_pattern`.  The
frequency test `count / total < 0.005` (with `count` and `total` Python
ints) is modelled by the exact cross-multiplied integer comparison
`1000 * count < 5 * total`; `freq_test_eq_rat` below relates it to the
rational formulation. -/
def is_meaningful_pattern (pat : List String) (count total : Nat) : Bool :=
  if pat.length ≤ 1 then false
  else if 0 < total ∧ 1000 * count < 5 * total then false
  else if pat ∈ genericPatterns then false
  else true

/-- The integer form of the frequency test agrees with the rational
inequality of the source expression. -/
theorem freq_test_eq_rat (count total : Nat) (h : 0 < total) :
    (1000 * count < 5 * total) ↔ ((count : ℚ) / (total : ℚ) < 0.005) := by
  rw [div_lt_iff₀ (by exact_mod_cast h)]
  constructor
  · intro hlt
    have : (1000 * count : ℚ) < 5 * total := by exact_mod_cast hlt
    norm_num at this ⊢
    linarith
  · intro hlt
    have : (1000 * count : ℚ) < 5 * total := by
      norm_num at hlt ⊢
      linarith
    exact_mod_cast this

/-- The ordering used by `meaningful_patterns.sort(key=lambda x: x[1],
reverse=True)`: descending by occurrence count. -/
def descByCount (a b : List String × Nat) : Prop := b.2 ≤ a.2

instance : DecidableRel descByCount := fun a b => Nat.decLe b.2 a.2

instance : IsTotal (List String × Nat) descByCount :=
  ⟨fun a b => Nat.le_total b.2 a.2⟩

instance : IsTrans (List String × Nat) descByCount :=
  ⟨fun _ _ _ h1 h2 => Nat.le_trans h2 h1⟩

/-- Python's `list.sort` is stable; a stable descending sort is
extensionally insertion sort with `descByCount`. -/
def sortDescByCount (l : List (List String × Nat)) : List (List String × Nat) :=
  l.insertionSort descByCount

/-- The `pattern_counts` of `_analyze_patterns`, computed from the
`function_structure` entries. -/
def patternCountsOf (funcPatterns : List FuncPatternInfo) : List (List String × Nat) :=
  counterOf (funcPatterns.map (·.pattern))

/-- The `top_patterns` of `_analyze_patterns`: meaningful patterns ranked by
descending count, truncated to 20. -/
def topPatternsOf (funcPatterns : List FuncPatternInfo) : List (List String × Nat) :=
  (sortDescByCount ((patternCountsOf funcPatterns).filter
    fun pc => is_meaningful_pattern pc.1 pc.2 funcPatterns.length)).take 20

/-- Model of `CodeIntelligenceAnalyzer._classify_pattern`. -/
def classify_pattern (pat : List String) : String :=
  if pat.any (fun tok => strStartsWith tok "CALL:" &&
      strContainsSub (strToLower tok) "download") then "Web Scraping"
  else if pat.any (fun tok => strStartsWith tok "CALL:" &&
      strContainsSub (strToLower tok) "regex") then "Regex Extraction"
  else if 2 ≤ pat.count "TRY_EXCEPT" then "Defensive Programming"
  else if 10 < pat.count "CONDITIONAL" then "High Complexity"
  else if 3 < pat.count "FOR_LOOP" + pat.count "WHILE_LOOP" then
    "Loop-Heavy Processing"
  else "Standard Logic"

/-! ### Anti-pattern detection (`_detect_anti_patterns`) -/

/-- One anti-pattern finding dictionary. -/
structure Finding where
  ftype : String
  file : String
  line : Nat
  functionName : String
  severity : String
  details : String
deriving DecidableEq, Repr

/-- The findings appended for one `pattern_info` by the loop body of
`_detect_anti_patterns` (the three independent rules, in source order). -/
def antiFindingsFor (pi : FuncPatternInfo) : List Finding :=
  (if 5 < pi.pattern.count "CONDITIONAL" then
    [⟨"HIGH_COMPLEXITY", pi.file, pi.line, pi.name, "HIGH",
      "Function has " ++ toString (pi.pattern.count "CONDITIONAL") ++
        " conditionals."⟩]
  else []) ++
  (if "RETURN" ∉ pi.pattern ∧ ¬ pi.pattern.any (fun p => strStartsWith p "CALL:") then
    [⟨"MISSING_RETURN", pi.file, pi.line, pi.name, "LOW",
      "Function has no explicit return statement."⟩]
  else []) ++
  (if 2 < pi.pattern.count "FOR_LOOP" + pi.pattern.count "WHILE_LOOP" then
    [⟨"NESTED_LOOPS", pi.file, pi.line, pi.name, "MEDIUM",
      "Potential nested loops detected."⟩]
  else [])

/-- Model of `CodeIntelligenceAnalyzer._detect_anti_patterns` (the loop over
`func_patterns`, appending each rule's finding in order). -/
def detect_anti_patterns (funcPatterns : List FuncPatternInfo) : List Finding :=
  funcPatterns.flatMap antiFindingsFor

/-! ### Input files and analyzer state -/

/-- One input file: `(filepath, content)` plus the outcome of the external
parser on `content` (`some tree` on success, `none` when `ast.parse` raises
`SyntaxError`). -/
structure SourceFile where
  path : String
  content : String
  parsed : Option Tree
deriving DecidableEq, Repr

/-- One entry of `self.function_metrics`. -/
structure FunctionMetric where
  file : String
  functionName : String
  cyclomatic_complexity : Nat
  line_start : Nat
  line_end : Nat
  loc : Nat
deriving DecidableEq, Repr

/-- One entry of `self.module_metrics` (keys `maintainability_index`,
`loc`). -/
structure ModuleMetric where
  maintainability_index : ℚ
  loc : Nat
deriving DecidableEq, Repr

/-- Attribute dictionary of a registered definition / graph node (keys
`file`, `line`, `type`, `name`); the `type` key is the field `dtype`. -/
structure NodeData where
  file : String
  line : Nat
  dtype : String
  name : String
deriving DecidableEq, Repr

/-- The `networkx.DiGraph`: nodes in insertion order with attribute
dictionaries, and directed edges in insertion order (at most one per
ordered pair). -/
structure DiGraph where
  nodes : List (String × NodeData)
  edges : List (String × String)
deriving DecidableEq, Repr

/-- The graph `networkx.DiGraph()` starts as. -/
def emptyGraph : DiGraph := ⟨[], []⟩

/-- Insertion-order-preserving dictionary update (`d[k] = v`): updating an
existing key keeps its position, a new key is appended. -/
def dictInsert {β : Type} (l : List (String × β)) (k : String) (v : β) :
    List (String × β) :=
  if l.any (fun kv => kv.1 = k) then
    l.map fun kv => if kv.1 = k then (k, v) else kv
  else l ++ [(k, v)]

/-- networkx `add_node` with attributes: updates attributes in place if the
node exists, else appends the node. -/
def DiGraph.addNode (g : DiGraph) (key : String) (d : NodeData) : DiGraph :=
  { g with nodes := dictInsert g.nodes key d }

/-- Attribute dictionary of a node created implicitly by `add_edge`;
reading its attributes later with `.get(key, default)` yields the
defaults. -/
def defaultNodeData : NodeData := ⟨"", 0, "", ""⟩

/-- networkx `add_edge`: adds missing endpoints (with empty attribute
dictionaries), then records the edge (a repeated edge only updates its
attributes). -/
def DiGraph.addEdge (g : DiGraph) (u v : String) : DiGraph :=
  let g1 := if g.nodes.any (fun kv => kv.1 = u) then g
    else { g with nodes := g.nodes ++ [(u, defaultNodeData)] }
  let g2 := if g1.nodes.any (fun kv => kv.1 = v) then g1
    else { g1 with nodes := g1.nodes ++ [(v, defaultNodeData)] }
  if (u, v) ∈ g2.edges then g2 else { g2 with edges := g2.edges ++ [(u, v)] }

/-- networkx `in_degree`. -/
def DiGraph.inDegree (g : DiGraph) (n : String) : Nat :=
  g.edges.countP (fun e => e.2 = n)

/-- networkx `out_degree`. -/
def DiGraph.outDegree (g : DiGraph) (n : String) : Nat :=
  g.edges.countP (fun e => e.1 = n)

/-- Python truth-test of `self.graph`: `False` for `None`; for a graph,
truth-testing falls back to `__len__` because networkx graphs define
`__len__` (the number of nodes) and no `__bool__`, so a graph with zero
nodes is also falsy. -/
def graphTruthy : Option DiGraph → Bool
  | none => false
  | some g => g.nodes.length != 0

/-- Mutable state of a `CodeIntelligenceAnalyzer` instance (the fields set
in `__init__` that the modelled analyzers read or write; `files_data` and
the never-read `pattern_frequency` are omitted). -/
structure AnalyzerState where
  function_metrics : List FunctionMetric
  module_metrics : List (String × ModuleMetric)
  definitions : List (String × NodeData)
  all_names : List String
  graph : Option DiGraph
  all_patterns : List PatternEntry
deriving DecidableEq, Repr

/-- Model of `CodeIntelligenceAnalyzer.__init__` under the given
availability of `networkx`. -/
def initState (networkxAvailable : Bool) : AnalyzerState :=
  { function_metrics := []
    module_metrics := []
    definitions := []
    all_names := []
    graph := if networkxAvailable then some emptyGraph else none
    all_patterns := [] }

/-! ### Call-graph construction (`_analyze_file_calls`) -/

/-- Registration of one named definition (shared body of the
`ast.FunctionDef` and `ast.ClassDef` branches of the definition pass). -/
def registerNamed (filepath : String) (st : AnalyzerState) (nm : String)
    (ln : Nat) (dtype : String) : AnalyzerState :=
  let fullName := filepath ++ "::" ++ nm
  let data : NodeData := ⟨filepath, ln, dtype, nm⟩
  { st with
    definitions := dictInsert st.definitions fullName data
    all_names := if nm ∈ st.all_names then st.all_names else st.all_names ++ [nm]
    graph :=
      if graphTruthy st.graph then st.graph.map (fun g => g.addNode fullName data)
      else st.graph }

/-- Definition-pass step of `_analyze_file_calls` for one walked node. -/
def registerDef (filepath : String) (st : AnalyzerState) (t : Tree) :
    AnalyzerState :=
  match t.kind with
  | .functionDef nm ln => registerNamed filepath st nm ln "function"
  | .classDef nm ln => registerNamed filepath st nm ln "class"
  | _ => st

/-- Edge creation of `CallVisitor.visit_Call` once a candidate called name
has been extracted: if the name is truthy and occurs in `all_names`, scan
`definitions` for the first entry with that local name and add an edge from
the current function to it. -/
def tryAddEdge (st : AnalyzerState) (cur : Option String) (cn : String) :
    AnalyzerState :=
  if cn != "" && st.all_names.contains cn then
    match st.definitions.find? (fun kv => kv.2.name = cn) with
    | some kv =>
      { st with graph := st.graph.map fun g => g.addEdge (cur.getD "") kv.1 }
    | none => st
  else st

/-- Python truth-test of `self.current_function` (a string or `None`). -/
def optStrTruthy : Option String → Bool
  | none => false
  | some s => s != ""

/-- Body of `CallVisitor.visit_Call` before its `generic_visit`: guarded by
the truthiness of `current_function` and of the graph. -/
def visitCallNode (cur : Option String) (st : AnalyzerState)
    (target : CallTarget) : AnalyzerState :=
  if optStrTruthy cur && graphTruthy st.graph then
    match target with
    | .nameT id => tryAddEdge st cur id
    | .attrT a => tryAddEdge st cur a
    | .otherT => st
  else st

mutual
/-- Model of `CallVisitor.visit` on one node: `visit_FunctionDef` swaps the
current function around its `generic_visit`; `visit_Call` runs the edge
logic and then `generic_visit`; every other node just `generic_visit`s. -/
def callVisit (filepath : String) (cur : Option String) (st : AnalyzerState) :
    Tree → AnalyzerState
  | .node (.functionDef nm _) c =>
    callVisitL filepath (some (filepath ++ "::" ++ nm)) st c
  | .node (.callExpr target) c =>
    callVisitL filepath cur (visitCallNode cur st target) c
  | .node _ c => callVisitL filepath cur st c
/-- Depth-first visit of a forest by `CallVisitor`. -/
def callVisitL (filepath : String) (cur : Option String) (st : AnalyzerState) :
    TreeList → AnalyzerState
  | .nil => st
  | .cons t ts => callVisitL filepath cur (callVisit filepath cur st t) ts
end

/-- Model of `CodeIntelligenceAnalyzer._analyze_file_calls`: on parse
failure the file contributes nothing; otherwise the definition pass over
`ast.walk(tree)` and then the `CallVisitor` (started with
`current_function = None`). -/
def analyze_file_calls (st : AnalyzerState) (f : SourceFile) : AnalyzerState :=
  match f.parsed with
  | none => st
  | some tree =>
    let st1 := (walk tree).foldl (registerDef f.path) st
    callVisit f.path none st1 tree

/-! ### Orphan detection (`_analyze_orphan_code`) -/

/-- The `info` dictionary built for each graph node. -/
structure OrphanInfo where
  name : String
  full_name : String
  file : String
  line : Nat
  dtype : String
  called_by : Nat
deriving DecidableEq, Repr

/-- Build the `info` dictionary of one node. -/
def orphanInfoOf (g : DiGraph) (kv : String × NodeData) : OrphanInfo :=
  ⟨kv.2.name, kv.1, kv.2.file, kv.2.line, kv.2.dtype, g.inDegree kv.1⟩

/-- The `is_special` test: dunder-prefixed names and `main`. -/
def isSpecialName (nm : String) : Bool := strStartsWith nm "__" || nm == "main"

/-- The `summary` dictionary of the orphan result. -/
structure OrphanSummary where
  total_definitions : Nat
  total_orphans : Nat
  orphan_percentage : ℚ
deriving DecidableEq, Repr

/-- The orphan analysis result: either the structured
`{error, message}` record or the populated record. -/
inductive OrphanResult where
  | unavailable (error message : String)
  | result (orphan_functions orphan_classes entry_points : List OrphanInfo)
      (summary : OrphanSummary)
deriving DecidableEq, Repr

/-- Model of `CodeIntelligenceAnalyzer._analyze_orphan_code`. -/
def analyze_orphan_code (networkxAvailable : Bool) (st : AnalyzerState)
    (files : List SourceFile) : AnalyzerState × Except String OrphanResult :=
  if ¬ networkxAvailable then
    (st, .ok (.unavailable "networkx library not installed"
      "Please install: pip install networkx"))
  else
    let st1 := files.foldl analyze_file_calls st
    let g := st1.graph.getD emptyGraph
    let orphanFunctions := (g.nodes.filter fun kv =>
      (g.inDegree kv.1 == 0) && !(isSpecialName kv.2.name) &&
        (kv.2.dtype == "function")).map (orphanInfoOf g)
    let orphanClasses := (g.nodes.filter fun kv =>
      (g.inDegree kv.1 == 0) && !(isSpecialName kv.2.name) &&
        (kv.2.dtype == "class")).map (orphanInfoOf g)
    let entryPoints := (g.nodes.filter fun kv =>
      (g.inDegree kv.1 == 0) && (g.outDegree kv.1 != 0)).map (orphanInfoOf g)
    let total := g.nodes.length
    let orphans := orphanFunctions.length + orphanClasses.length
    match pyDiv (orphans : ℚ) (max total 1) with
    | .error e => (st1, .error e)
    | .ok q =>
      (st1, .ok (.result (orphanFunctions.take 50) (orphanClasses.take 50)
        (entryPoints.take 20) ⟨total, orphans, pyRound2 (q * 100)⟩))

/-! ### Complexity analysis (`_analyze_complexity`) -/

/-- One block yielded by `radon_cc.cc_visit` (with the line attributes the
analyzer reads via `getattr`). -/
structure CCItemData where
  name : String
  complexity : Nat
  lineno : Nat
  endlineno : Nat
deriving DecidableEq, Repr

/-- Outcome of the external `radon` calls on one file's content: `none`
models `radon_cc.cc_visit` raising (the whole `try` body is abandoned
before anything is recorded); `some (items, mi?)` models `cc_visit`
returning `items`, with `mi?` the outcome of `radon_metrics.mi_visit`
(`none` = it raised, after the function metrics were already appended). -/
def RadonOracle := String → Option (List CCItemData × Option ℚ)

/-- Model of `content.count(chr(10)) + 1`. -/
def lineCount (s : String) : Nat := s.toList.count (Char.ofNat 10) + 1

/-- Per-file body of the `_analyze_complexity` loop. -/
def complexityStep (oracle : RadonOracle) (st : AnalyzerState)
    (f : SourceFile) : AnalyzerState :=
  if ¬ strEndsWith f.path ".py" then st
  else
    match oracle f.content with
    | none => st
    | some (items, miOpt) =>
      let newMetrics : List FunctionMetric := items.map (fun it =>
        ⟨f.path, it.name, it.complexity, it.lineno, it.endlineno,
          max (it.endlineno - it.lineno + 1) 1⟩)
      let st1 := { st with function_metrics := st.function_metrics ++ newMetrics }
      match miOpt with
      | none => st1
      | some mi =>
        { st1 with module_metrics :=
            dictInsert st1.module_metrics f.path ⟨mi, lineCount f.content⟩ }

/-- The `summary` dictionary of the complexity result. -/
structure ComplexitySummary where
  avg_complexity : ℚ
  complex_functions : Nat
  total_functions : Nat
  total_modules : Nat
deriving DecidableEq, Repr

/-- The complexity result record. -/
inductive ComplexityResult where
  | unavailable (error message : String)
  | result (function_metrics : List FunctionMetric)
      (module_metrics : List (String × ModuleMetric))
      (summary : ComplexitySummary)
deriving DecidableEq, Repr

/-- Model of `CodeIntelligenceAnalyzer._analyze_complexity`. -/
def analyze_complexity (radonAvailable : Bool) (oracle : RadonOracle)
    (st : AnalyzerState) (files : List SourceFile) :
    AnalyzerState × Except String ComplexityResult :=
  if ¬ radonAvailable then
    (st, .ok (.unavailable "radon library not installed"
      "Please install: pip install radon"))
  else
    let st1 := files.foldl (complexityStep oracle) st
    let avgE : Except String ℚ :=
      if st1.function_metrics.length ≠ 0 then
        pyDiv ((st1.function_metrics.map
            (fun m => (m.cyclomatic_complexity : ℚ))).sum)
          st1.function_metrics.length
      else .ok 0
    match avgE with
    | .error e => (st1, .error e)
    | .ok avg =>
      (st1, .ok (.result st1.function_metrics st1.module_metrics
        ⟨pyRound2 avg,
         st1.function_metrics.countP (fun m => decide (10 < m.cyclomatic_complexity)),
         st1.function_metrics.length, st1.module_metrics.length⟩))

/-! ### Pattern analysis (`_analyze_patterns`) -/

/-- One entry of the `common_patterns` list. -/
structure CommonPattern where
  pattern : List String
  count : Nat
  percentage : ℚ
  classification : String
deriving DecidableEq, Repr

/-- The `class_stats` dictionary. -/
structure ClassStats where
  avg_methods : ℚ
  with_init : Nat
deriving DecidableEq, Repr

/-- The pattern-analysis result record. -/
structure PatternsResult where
  common_patterns : List CommonPattern
  rare_patterns : Nat
  anti_patterns : List Finding
  total_patterns : Nat
  total_functions : Nat
  total_classes : Nat
  class_stats : ClassStats
deriving DecidableEq, Repr

/-- Per-file step of `_analyze_patterns`: parse, extract, extend
`all_patterns`; a `SyntaxError` skips the file. -/
def patternsFileStep (st : AnalyzerState) (f : SourceFile) : AnalyzerState :=
  match f.parsed with
  | none => st
  | some tree =>
    { st with all_patterns := st.all_patterns ++ extract_patterns f.path tree }

/-- Model of `CodeIntelligenceAnalyzer._analyze_patterns`. -/
def analyze_patterns (st : AnalyzerState) (files : List SourceFile) :
    AnalyzerState × Except String PatternsResult :=
  let st1 := files.foldl patternsFileStep st
  let funcPatterns := funcPatternsOf st1.all_patterns
  let classPatterns := classPatternsOf st1.all_patterns
  let patternCounts := patternCountsOf funcPatterns
  let top := topPatternsOf funcPatterns
  let commonE : Except String (List CommonPattern) :=
    top.mapM fun pc =>
      (pyDiv (pc.2 : ℚ) funcPatterns.length).map fun q =>
        ⟨pc.1, pc.2, pyRound2 (q * 100), classify_pattern pc.1⟩
  match commonE with
  | .error e => (st1, .error e)
  | .ok common =>
    let avgMethodsE : Except String ℚ :=
      if classPatterns.length ≠ 0 then
        pyDiv ((classPatterns.map fun p => (p.methodCount : ℚ)).sum)
          (max classPatterns.length 1)
      else .ok 0
    match avgMethodsE with
    | .error e => (st1, .error e)
    | .ok avgMethods =>
      (st1, .ok {
        common_patterns := common
        rare_patterns := (patternCounts.filter fun pc => pc.2 == 1).length
        anti_patterns := detect_anti_patterns funcPatterns
        total_patterns := st1.all_patterns.length
        total_functions := funcPatterns.length
        total_classes := classPatterns.length
        class_stats := ⟨avgMethods, classPatterns.countP (fun p => p.hasInit)⟩ })

/-! ### Public entry point (`analyze_codebase_from_files`) -/

/-- The results dictionary returned by `analyze_codebase_from_files`; a
`none` field is the `None` the dictionary is initialized with.  The
similarity analyzer wraps external ML components (embedding model,
clustering) and is modelled only through its availability guard. -/
structure AnalysisResults where
  complexity : Option ComplexityResult
  orphan : Option OrphanResult
  patterns : Option PatternsResult
  similarity : Option Unit
deriving DecidableEq, Repr

/-- Model of `CodeIntelligenceAnalyzer.analyze_codebase_from_files`: runs
the requested analyses in order on the instance state; an uncaught Python
exception in one of them (an `Except.error` here) propagates out and
aborts the rest. -/
def analyze_codebase_from_files (radonAvailable networkxAvailable
    transformersAvailable : Bool) (oracle : RadonOracle) (st : AnalyzerState)
    (files : List SourceFile) (analysisTypes : List String) :
    AnalyzerState × Except String AnalysisResults :=
  let step1 : AnalyzerState × Except String (Option ComplexityResult) :=
    if "complexity" ∈ analysisTypes then
      let p := analyze_complexity radonAvailable oracle st files
      (p.1, p.2.map some)
    else (st, .ok none)
  match step1 with
  | (st1, .error e) => (st1, .error e)
  | (st1, .ok c) =>
    let step2 : AnalyzerState × Except String (Option OrphanResult) :=
      if "orphan" ∈ analysisTypes then
        let p := analyze_orphan_code networkxAvailable st1 files
        (p.1, p.2.map some)
      else (st1, .ok none)
    match step2 with
    | (st2, .error e) => (st2, .error e)
    | (st2, .ok o) =>
      let step3 : AnalyzerState × Except String (Option PatternsResult) :=
        if "patterns" ∈ analysisTypes then
          let p := analyze_patterns st2 files
          (p.1, p.2.map some)
        else (st2, .ok none)
      match step3 with
      | (st3, .error e) => (st3, .error e)
      | (st3, .ok p) =>
        let sim : Option Unit :=
          if "similarity" ∈ analysisTypes ∧ transformersAvailable then some ()
          else none
        (st3, .ok ⟨c, o, p, sim⟩)

/-! ### The call graph never grows

`__init__` leaves `self.graph` as `None` or as an empty `DiGraph`, and both
are falsy, so the guards `if self.graph:` in the definition pass and
`if self.current_function and self.analyzer.graph:` in `visit_Call` are
never taken: no node and no edge is ever added. -/

/-- The graph as `__init__` leaves it: `None` or the empty `DiGraph`. -/
def graphUnbuilt (st : AnalyzerState) : Prop :=
  st.graph = none ∨ st.graph = some emptyGraph

theorem graphTruthy_false_of_unbuilt {st : AnalyzerState}
    (h : graphUnbuilt st) : graphTruthy st.graph = false := by
  rcases h with h | h <;> rw [h] <;> rfl

theorem registerNamed_graph_eq {st : AnalyzerState} (h : graphUnbuilt st)
    (filepath nm : String) (ln : Nat) (dtype : String) :
    (registerNamed filepath st nm ln dtype).graph = st.graph := by
  simp [registerNamed, graphTruthy_false_of_unbuilt h]

theorem registerDef_graph_eq {st : AnalyzerState} (h : graphUnbuilt st)
    (filepath : String) (t : Tree) :
    (registerDef filepath st t).graph = st.graph := by
  unfold registerDef
  cases t.kind <;>
    simp [registerNamed_graph_eq h]

theorem registerDef_unbuilt {st : AnalyzerState} (h : graphUnbuilt st)
    (filepath : String) (t : Tree) :
    graphUnbuilt (registerDef filepath st t) := by
  unfold graphUnbuilt
  rw [registerDef_graph_eq h]
  exact h

theorem foldl_registerDef_unbuilt (filepath : String) :
    ∀ (l : List Tree) (st : AnalyzerState), graphUnbuilt st →
      graphUnbuilt (l.foldl (registerDef filepath) st)
  | [], _, h => h
  | t :: ts, st, h =>
    foldl_registerDef_unbuilt filepath ts _ (registerDef_unbuilt h filepath t)

theorem visitCallNode_eq {st : AnalyzerState} (h : graphUnbuilt st)
    (cur : Option String) (target : CallTarget) :
    visitCallNode cur st target = st := by
  simp [visitCallNode, graphTruthy_false_of_unbuilt h]

mutual
theorem callVisit_unbuilt :
    ∀ (filepath : String) (cur : Option String) (st : AnalyzerState),
      graphUnbuilt st → ∀ t : Tree, graphUnbuilt (callVisit filepath cur st t)
  | filepath, cur, st, h, .node (.functionDef nm ln) c =>
    callVisitL_unbuilt filepath (some (filepath ++ "::" ++ nm)) st h c
  | filepath, cur, st, h, .node (.callExpr target) c => by
    rw [callVisit, visitCallNode_eq h]
    exact callVisitL_unbuilt filepath cur st h c
  | filepath, cur, st, h, .node .forStmt c => callVisitL_unbuilt filepath cur st h c
  | filepath, cur, st, h, .node .whileStmt c => callVisitL_unbuilt filepath cur st h c
  | filepath, cur, st, h, .node .ifStmt c => callVisitL_unbuilt filepath cur st h c
  | filepath, cur, st, h, .node .tryStmt c => callVisitL_unbuilt filepath cur st h c
  | filepath, cur, st, h, .node .withStmt c => callVisitL_unbuilt filepath cur st h c
  | filepath, cur, st, h, .node .returnStmt c => callVisitL_unbuilt filepath cur st h c
  | filepath, cur, st, h, .node .raiseStmt c => callVisitL_unbuilt filepath cur st h c
  | filepath, cur, st, h, .node (.classDef nm ln) c => callVisitL_unbuilt filepath cur st h c
  | filepath, cur, st, h, .node .otherNode c => callVisitL_unbuilt filepath cur st h c
theorem callVisitL_unbuilt :
    ∀ (filepath : String) (cur : Option String) (st : AnalyzerState),
      graphUnbuilt st → ∀ ts : TreeList, graphUnbuilt (callVisitL filepath cur st ts)
  | _, _, st, h, .nil => h
  | filepath, cur, st, h, .cons t ts =>
    callVisitL_unbuilt filepath cur _ (callVisit_unbuilt filepath cur st h t) ts
end

theorem analyze_file_calls_unbuilt {st : AnalyzerState} (h : graphUnbuilt st)
    (f : SourceFile) : graphUnbuilt (analyze_file_calls st f) := by
  unfold analyze_file_calls
  cases f.parsed with
  | none => exact h
  | some tree =>
    exact callVisit_unbuilt f.path none _
      (foldl_registerDef_unbuilt f.path (walk tree) st h) tree

theorem foldl_analyze_file_calls_unbuilt :
    ∀ (files : List SourceFile) (st : AnalyzerState), graphUnbuilt st →
      graphUnbuilt (files.foldl analyze_file_calls st)
  | [], _, h => h
  | f :: fs, st, h =>
    foldl_analyze_file_calls_unbuilt fs _ (analyze_file_calls_unbuilt h f)

/-- General form of the defect behind several claims: starting from a fresh
analyzer (or any state whose graph is still `None` or empty), the orphan
analysis reports no node at all — empty orphan and entry-point lists and
zero counts — whatever the input files are. -/
theorem orphan_result_always_empty (st : AnalyzerState) (h : graphUnbuilt st)
    (files : List SourceFile) :
    (analyze_orphan_code true st files).2 = .ok (.result [] [] [] ⟨0, 0, 0⟩) := by
  have hg := foldl_analyze_file_calls_unbuilt files st h
  unfold analyze_orphan_code
  have hnodes : ((files.foldl analyze_file_calls st).graph.getD emptyGraph) =
      emptyGraph := by
    rcases hg with h1 | h1 <;> rw [h1] <;> rfl
  simp only [hnodes]
  have e2 : pyRound2 0 = 0 := by norm_num [pyRound2]
  simp [emptyGraph, pyDiv, e2]

/-- Is a node a function or class definition (what the definition pass
registers)? -/
def isDefNode (t : Tree) : Bool :=
  match t.kind with
  | .functionDef _ _ => true
  | .classDef _ _ => true
  | _ => false

/-- Total number of function and class definitions found across all
parseable files (counted over the same `ast.walk` the definition pass
uses). -/
def definitionsFound (files : List SourceFile) : Nat :=
  ((files.filterMap (fun f => f.parsed)).map
    (fun t => (walk t).countP isDefNode)).sum

/-! ### Claim C1: the three-file orphan scenario -/

/-- File A: `def foo(): bar()`. -/
def c1FileA : SourceFile :=
  ⟨"a.py", "def foo():\n    bar()\n", some (.node .otherNode (TreeList.ofList
    [.node (.functionDef "foo" 1) (TreeList.ofList
      [.node (.callExpr (.nameT "bar")) TreeList.nil])]))⟩

/-- File B: `def bar(): pass`. -/
def c1FileB : SourceFile :=
  ⟨"b.py", "def bar():\n    pass\n", some (.node .otherNode (TreeList.ofList
    [.node (.functionDef "bar" 1) TreeList.nil]))⟩

/-- File C: `def baz(): pass`. -/
def c1FileC : SourceFile :=
  ⟨"c.py", "def baz():\n    pass\n", some (.node .otherNode (TreeList.ofList
    [.node (.functionDef "baz" 1) TreeList.nil]))⟩

/-- C1: on the claimed three-file input (A defines `foo` calling `bar`, B
defines `bar`, C defines `baz`), the orphan analysis does NOT produce a
3-node, 1-edge graph with `foo`/`baz` orphans and `foo` an entry point: the
graph stays empty (an empty `networkx` graph is falsy, so `if self.graph:`
never lets a node be added), every returned list is empty and every count
is zero — even though all 3 definitions were registered in
`self.definitions`. -/
theorem c1_three_file_scenario_eval :
    (analyze_orphan_code true (initState true) [c1FileA, c1FileB, c1FileC]).2 =
      .ok (.result [] [] [] ⟨0, 0, 0⟩) ∧
    ((analyze_orphan_code true (initState true)
      [c1FileA, c1FileB, c1FileC]).1).graph = some emptyGraph ∧
    ((analyze_orphan_code true (initState true)
      [c1FileA, c1FileB, c1FileC]).1).definitions.length = 3 := by
  refine ⟨?_, rfl, rfl⟩
  exact orphan_result_always_empty _ (Or.inr rfl) _

/-! ### Claim C2: never-called functions and the orphan list -/

/-- A file defining a single function `f` (not `main`, no dunder prefix)
that nothing calls. -/
def c2File : SourceFile :=
  ⟨"f.py", "def f():\n    return 1\n", some (.node .otherNode (TreeList.ofList
    [.node (.functionDef "f" 1) (TreeList.ofList
      [.node .returnStmt TreeList.nil])]))⟩

/-- C2: the never-called function `f` (registered in `definitions`, not
`main`, not dunder-prefixed) does NOT appear in the returned
`orphan_functions`: the list comes out empty because the graph never
receives a node. -/
theorem c2_uncalled_function_eval :
    (analyze_orphan_code true (initState true) [c2File]).2 =
      .ok (.result [] [] [] ⟨0, 0, 0⟩) ∧
    ((analyze_orphan_code true (initState true) [c2File]).1).definitions =
      [("f.py::f", ⟨"f.py", 1, "function", "f"⟩)] := by
  refine ⟨?_, rfl⟩
  exact orphan_result_always_empty _ (Or.inr rfl) _

/-! ### Claim C3: two successive runs on the same analyzer -/

/-- A file defining a single function `f` with a `return`. -/
def c3File : SourceFile :=
  ⟨"d.py", "def f():\n    return 1\n", some (.node .otherNode (TreeList.ofList
    [.node (.functionDef "f" 1) (TreeList.ofList
      [.node .returnStmt TreeList.nil])]))⟩

/-- First run of the full analysis on a fresh analyzer. -/
def c3Run1 : AnalyzerState × Except String AnalysisResults :=
  analyze_codebase_from_files true true false (fun _ => none) (initState true)
    [c3File] ["complexity", "orphan", "patterns"]

/-- Second run, in succession, on the same analyzer (its state after the
first run) with the unchanged file set. -/
def c3Run2 : AnalyzerState × Except String AnalysisResults :=
  analyze_codebase_from_files true true false (fun _ => none) c3Run1.1
    [c3File] ["complexity", "orphan", "patterns"]

/-- C3: the two runs do not yield identical summary counts: the analyzer
never resets its accumulators, so `all_patterns` doubles and the pattern
summary reports 1 function and 1 pattern on the first run but 2 on the
second. -/
theorem c3_second_run_differs :
    c3Run1.2.toOption.bind (fun r => r.patterns.map (fun p => p.total_functions)) =
      some 1 ∧
    c3Run2.2.toOption.bind (fun r => r.patterns.map (fun p => p.total_functions)) =
      some 2 ∧
    c3Run1.2.toOption.bind (fun r => r.patterns.map (fun p => p.total_patterns)) =
      some 1 ∧
    c3Run2.2.toOption.bind (fun r => r.patterns.map (fun p => p.total_patterns)) =
      some 2 :=
  ⟨rfl, rfl, rfl, rfl⟩

/-! ### Claim C5: node count versus definitions found -/

/-- A file with exactly one function definition. -/
def c5File : SourceFile :=
  ⟨"m.py", "def g():\n    return 0\n", some (.node .otherNode (TreeList.ofList
    [.node (.functionDef "g" 1) (TreeList.ofList
      [.node .returnStmt TreeList.nil])]))⟩

/-- C5: the call graph's node count does NOT equal the number of function
and class definitions found: one definition is found in the single
parseable file, but the graph still has zero nodes (and the summary reports
zero total definitions). -/
theorem c5_node_count_eval :
    definitionsFound [c5File] = 1 ∧
    ((analyze_orphan_code true (initState true) [c5File]).1).graph =
      some emptyGraph ∧
    (analyze_orphan_code true (initState true) [c5File]).2 =
      .ok (.result [] [] [] ⟨0, 0, 0⟩) := by
  refine ⟨rfl, rfl, ?_⟩
  exact orphan_result_always_empty _ (Or.inr rfl) _

/-! ### Claim C8: the empty file set -/

/-- C8: with all required libraries available, analyzing zero files returns
well-formed zero/empty records for the complexity, orphan and pattern
analyses (and no exception): zero counts, zero averages, `orphan_percentage`
0, empty `common_patterns`. -/
theorem c8_empty_fileset_zero_results (oracle : RadonOracle) :
    analyze_codebase_from_files true true false oracle (initState true) []
      ["complexity", "orphan", "patterns"] =
    (initState true, .ok
      ⟨some (.result [] [] ⟨0, 0, 0, 0⟩),
       some (.result [] [] [] ⟨0, 0, 0⟩),
       some ⟨[], 0, [], 0, 0, 0, ⟨0, 0⟩⟩,
       none⟩) := by
  have h : analyze_codebase_from_files true true false oracle (initState true) []
      ["complexity", "orphan", "patterns"] =
    (initState true, .ok
      ⟨some (.result [] [] ⟨pyRound2 0, 0, 0, 0⟩),
       some (.result [] [] [] ⟨0, 0, pyRound2 ((0 : ℚ) / ((1 : Nat) : ℚ) * 100)⟩),
       some ⟨[], 0, [], 0, 0, 0, ⟨0, 0⟩⟩,
       none⟩) := rfl
  have e1 : pyRound2 0 = 0 := by norm_num [pyRound2]
  have e2 : pyRound2 ((0 : ℚ) / ((1 : Nat) : ℚ) * 100) = 0 := by
    norm_num [pyRound2]
  rw [h, e1, e2]

/-! ### Claim C4: no exception escapes the public entry point -/

theorem pyDiv_ok (a : ℚ) (b : Nat) (h : b ≠ 0) :
    pyDiv a b = .ok (a / (b : ℚ)) := by
  simp [pyDiv, h]

theorem analyze_complexity_ok (radonAvailable : Bool) (oracle : RadonOracle)
    (st : AnalyzerState) (files : List SourceFile) :
    ∃ r, (analyze_complexity radonAvailable oracle st files).2 = .ok r := by
  cases radonAvailable with
  | false => exact ⟨_, rfl⟩
  | true =>
    simp only [analyze_complexity]
    rw [if_neg (by simp)]
    by_cases h : (files.foldl (complexityStep oracle) st).function_metrics.length ≠ 0
    · rw [if_pos h, pyDiv_ok _ _ h]
      exact ⟨_, rfl⟩
    · rw [if_neg h]
      exact ⟨_, rfl⟩

theorem analyze_orphan_code_ok (networkxAvailable : Bool) (st : AnalyzerState)
    (files : List SourceFile) :
    ∃ r, (analyze_orphan_code networkxAvailable st files).2 = .ok r := by
  cases networkxAvailable with
  | false => exact ⟨_, rfl⟩
  | true =>
    simp only [analyze_orphan_code]
    rw [if_neg (by simp)]
    rw [pyDiv_ok _ _ (by
      have := Nat.le_max_right (((files.foldl analyze_file_calls st).graph.getD
        emptyGraph).nodes.length) 1
      omega)]
    exact ⟨_, rfl⟩

theorem counterOf_nil : counterOf [] = [] := rfl

theorem mem_counterOf_ne_nil {l : List (List String)} {pc : List String × Nat}
    (h : pc ∈ counterOf l) : l ≠ [] := by
  rintro rfl
  simp [counterOf] at h

/-- Every reported top pattern is a counted pattern that passed the
meaningful filter. -/
theorem mem_topPatternsOf {fps : List FuncPatternInfo} {pc : List String × Nat}
    (h : pc ∈ topPatternsOf fps) :
    pc ∈ patternCountsOf fps ∧
      is_meaningful_pattern pc.1 pc.2 fps.length = true := by
  unfold topPatternsOf sortDescByCount at h
  have h1 := List.mem_of_mem_take h
  have h2 := (List.perm_insertionSort descByCount _).subset h1
  exact ⟨(List.mem_filter.mp h2).1, (List.mem_filter.mp h2).2⟩

/-- If any top pattern exists, at least one function pattern was counted. -/
theorem funcPatterns_ne_nil_of_mem_top {fps : List FuncPatternInfo}
    {pc : List String × Nat} (h : pc ∈ topPatternsOf fps) :
    fps.length ≠ 0 := by
  have h1 := (mem_topPatternsOf h).1
  unfold patternCountsOf at h1
  have h2 := mem_counterOf_ne_nil h1
  intro hlen
  exact h2 (by simp [List.length_eq_zero.mp hlen])

theorem mapM_ok_of_forall {α β : Type} (l : List α) (f : α → Except String β)
    (h : ∀ a ∈ l, ∃ b, f a = .ok b) : ∃ bs, l.mapM f = .ok bs := by
  induction l with
  | nil => exact ⟨[], rfl⟩
  | cons a l ih =>
    obtain ⟨b, hb⟩ := h a (by simp)
    obtain ⟨bs, hbs⟩ := ih (fun x hx => h x (by simp [hx]))
    refine ⟨b :: bs, ?_⟩
    rw [List.mapM_cons, hb, hbs]
    rfl

theorem analyze_patterns_ok (st : AnalyzerState) (files : List SourceFile) :
    ∃ r, (analyze_patterns st files).2 = .ok r := by
  simp only [analyze_patterns]
  obtain ⟨cs, hcs⟩ := mapM_ok_of_forall
    (topPatternsOf (funcPatternsOf (files.foldl patternsFileStep st).all_patterns))
    (fun pc => Except.map
      (fun q => CommonPattern.mk pc.1 pc.2 (pyRound2 (q * 100))
        (classify_pattern pc.1))
      (pyDiv (pc.2 : ℚ)
        (funcPatternsOf (files.foldl patternsFileStep st).all_patterns).length))
    (fun pc hpc => by
      simp only [pyDiv_ok _ _ (funcPatterns_ne_nil_of_mem_top hpc), Except.map]
      exact ⟨_, rfl⟩)
  rw [hcs]
  by_cases h : (classPatternsOf (files.foldl patternsFileStep st).all_patterns).length ≠ 0
  · rw [if_pos h, pyDiv_ok _ _ (by
      have := Nat.le_max_right (classPatternsOf
        (files.foldl patternsFileStep st).all_patterns).length 1
      omega)]
    exact ⟨_, rfl⟩
  · rw [if_neg h]
    exact ⟨_, rfl⟩

/-- C4: for every capability configuration, every radon behavior, every
analyzer state, every input file set (including unparseable files), and
every requested analysis list, the public entry point returns a results
record — never a language-level exception (`Except.error`). -/
theorem c4_entry_point_never_raises (radonAvailable networkxAvailable
    transformersAvailable : Bool) (oracle : RadonOracle) (st : AnalyzerState)
    (files : List SourceFile) (analysisTypes : List String) :
    ∃ r, (analyze_codebase_from_files radonAvailable networkxAvailable
      transformersAvailable oracle st files analysisTypes).2 = .ok r := by
  by_cases h1 : "complexity" ∈ analysisTypes <;>
    by_cases h2 : "orphan" ∈ analysisTypes <;>
      by_cases h3 : "patterns" ∈ analysisTypes
  · obtain ⟨r1, hr1⟩ := analyze_complexity_ok radonAvailable oracle st files
    obtain ⟨r2, hr2⟩ := analyze_orphan_code_ok networkxAvailable
      (analyze_complexity radonAvailable oracle st files).1 files
    obtain ⟨r3, hr3⟩ := analyze_patterns_ok (analyze_orphan_code
      networkxAvailable (analyze_complexity radonAvailable oracle st files).1
        files).1 files
    simp only [analyze_codebase_from_files, if_pos h1, if_pos h2, if_pos h3,
      hr1, hr2, hr3, Except.map]
    exact ⟨_, rfl⟩
  · obtain ⟨r1, hr1⟩ := analyze_complexity_ok radonAvailable oracle st files
    obtain ⟨r2, hr2⟩ := analyze_orphan_code_ok networkxAvailable
      (analyze_complexity radonAvailable oracle st files).1 files
    simp only [analyze_codebase_from_files, if_pos h1, if_pos h2, if_neg h3,
      hr1, hr2, Except.map]
    exact ⟨_, rfl⟩
  · obtain ⟨r1, hr1⟩ := analyze_complexity_ok radonAvailable oracle st files
    obtain ⟨r3, hr3⟩ := analyze_patterns_ok
      (analyze_complexity radonAvailable oracle st files).1 files
    simp only [analyze_codebase_from_files, if_pos h1, if_neg h2, if_pos h3,
      hr1, hr3, Except.map]
    exact ⟨_, rfl⟩
  · obtain ⟨r1, hr1⟩ := analyze_complexity_ok radonAvailable oracle st files
    simp only [analyze_codebase_from_files, if_pos h1, if_neg h2, if_neg h3,
      hr1, Except.map]
    exact ⟨_, rfl⟩
  · obtain ⟨r2, hr2⟩ := analyze_orphan_code_ok networkxAvailable st files
    obtain ⟨r3, hr3⟩ := analyze_patterns_ok
      (analyze_orphan_code networkxAvailable st files).1 files
    simp only [analyze_codebase_from_files, if_neg h1, if_pos h2, if_pos h3,
      hr2, hr3, Except.map]
    exact ⟨_, rfl⟩
  · obtain ⟨r2, hr2⟩ := analyze_orphan_code_ok networkxAvailable st files
    simp only [analyze_codebase_from_files, if_neg h1, if_pos h2, if_neg h3,
      hr2, Except.map]
    exact ⟨_, rfl⟩
  · obtain ⟨r3, hr3⟩ := analyze_patterns_ok st files
    simp only [analyze_codebase_from_files, if_neg h1, if_neg h2, if_pos h3,
      hr3, Except.map]
    exact ⟨_, rfl⟩
  · simp only [analyze_codebase_from_files, if_neg h1, if_neg h2, if_neg h3]
    exact ⟨_, rfl⟩

/-! ### Claim C6: the HIGH_COMPLEXITY anti-pattern rule -/

/-- C6: a function whose token sequence has exactly 6 `CONDITIONAL` tokens
and no loop tokens yields exactly one HIGH_COMPLEXITY finding, with
severity HIGH and a detail text containing "6"; with exactly 5
`CONDITIONAL` tokens it yields none. -/
theorem c6_high_complexity_rule (pinfo : FuncPatternInfo) :
    (pinfo.pattern.count "CONDITIONAL" = 6 →
      pinfo.pattern.count "FOR_LOOP" = 0 →
      pinfo.pattern.count "WHILE_LOOP" = 0 →
      (antiFindingsFor pinfo).filter
          (fun fd => fd.ftype == "HIGH_COMPLEXITY") =
        [⟨"HIGH_COMPLEXITY", pinfo.file, pinfo.line, pinfo.name, "HIGH",
          "Function has 6 conditionals."⟩] ∧
      strContainsSub "Function has 6 conditionals." "6" = true) ∧
    (pinfo.pattern.count "CONDITIONAL" = 5 →
      (antiFindingsFor pinfo).filter
        (fun fd => fd.ftype == "HIGH_COMPLEXITY") = []) := by
  constructor
  · intro h6 hf hw
    refine ⟨?_, by decide⟩
    unfold antiFindingsFor
    rw [h6, hf, hw]
    by_cases hm : "RETURN" ∉ pinfo.pattern ∧
        ¬ pinfo.pattern.any (fun p => strStartsWith p "CALL:")
    · rw [if_pos hm]
      rfl
    · rw [if_neg hm]
      rfl
  · intro h5
    unfold antiFindingsFor
    rw [h5]
    by_cases hm : "RETURN" ∉ pinfo.pattern ∧
        ¬ pinfo.pattern.any (fun p => strStartsWith p "CALL:")
    · rw [if_pos hm]
      by_cases hl : 2 < pinfo.pattern.count "FOR_LOOP" +
          pinfo.pattern.count "WHILE_LOOP"
      · rw [if_pos hl]; rfl
      · rw [if_neg hl]; rfl
    · rw [if_neg hm]
      by_cases hl : 2 < pinfo.pattern.count "FOR_LOOP" +
          pinfo.pattern.count "WHILE_LOOP"
      · rw [if_pos hl]; rfl
      · rw [if_neg hl]; rfl

/-- A function pattern with exactly six conditionals. -/
def c6Pattern6 : FuncPatternInfo :=
  ⟨"f6", "x.py", 3, ["CONDITIONAL", "CONDITIONAL", "CONDITIONAL",
    "CONDITIONAL", "CONDITIONAL", "CONDITIONAL"]⟩

/-- A function pattern with exactly five conditionals. -/
def c6Pattern5 : FuncPatternInfo :=
  ⟨"f5", "x.py", 9, ["CONDITIONAL", "CONDITIONAL", "CONDITIONAL",
    "CONDITIONAL", "CONDITIONAL"]⟩

/-- Witness for C6 at concrete six- and five-conditional functions. -/
theorem c6_high_complexity_rule_witness :
    ((antiFindingsFor c6Pattern6).filter
        (fun fd => fd.ftype == "HIGH_COMPLEXITY") =
      [⟨"HIGH_COMPLEXITY", c6Pattern6.file, c6Pattern6.line, c6Pattern6.name,
        "HIGH", "Function has 6 conditionals."⟩] ∧
      strContainsSub "Function has 6 conditionals." "6" = true) ∧
    (antiFindingsFor c6Pattern5).filter
      (fun fd => fd.ftype == "HIGH_COMPLEXITY") = [] :=
  ⟨(c6_high_complexity_rule c6Pattern6).1 (by decide) (by decide) (by decide),
   (c6_high_complexity_rule c6Pattern5).2 (by decide)⟩

/-! ### Claim C9: the denylist in the meaningful filter is redundant -/

/-- The simplified predicate of the claim, written from the claim's words
for the refinement comparison: length greater than 1, and not an
undersized frequency (`total > 0` and `count / total < 0.005`, the
frequency test modelled exactly as in `is_meaningful_pattern`); no
denylist. -/
def simplifiedMeaningful (pat : List String) (count total : Nat) : Bool :=
  decide (1 < pat.length) &&
    !(decide (0 < total) && decide (1000 * count < 5 * total))

/-- C9: the meaningful-pattern filter is extensionally the simplified
predicate — the denylist comparison never changes the outcome, because
every denylisted sequence already fails the length test. -/
theorem c9_denylist_redundant (pat : List String) (count total : Nat) :
    is_meaningful_pattern pat count total = simplifiedMeaningful pat count total := by
  unfold is_meaningful_pattern simplifiedMeaningful
  by_cases h1 : pat.length ≤ 1
  · rw [if_pos h1]
    have h2 : ¬ 1 < pat.length := by omega
    simp [h2]
  · rw [if_neg h1]
    have h2 : 1 < pat.length := by omega
    by_cases h3 : 0 < total ∧ 1000 * count < 5 * total
    · rw [if_pos h3]
      simp [h2, h3.1, h3.2]
    · rw [if_neg h3]
      have h4 : pat ∉ genericPatterns := by
        intro hmem
        simp only [genericPatterns, List.mem_cons, List.not_mem_nil,
          or_false] at hmem
        rcases hmem with h | h | h | h <;> subst h <;> simp at h1
      rw [if_neg h4]
      rcases Decidable.not_and_iff_or_not.mp h3 with h | h <;> simp [h2, h]

/-! ### Claim C7: retention, ranking and truncation of common patterns -/

/-- The meaningful filter in terms of the claim's conditions: length
greater than 1, occurrence count at least 0.5 percent of the total
function count, not denylisted. -/
theorem is_meaningful_iff (pat : List String) (count total : Nat) :
    is_meaningful_pattern pat count total = true ↔
      (1 < pat.length ∧ (0.005 : ℚ) * (total : ℚ) ≤ (count : ℚ) ∧
        pat ∉ genericPatterns) := by
  have hfreq : (¬ (0 < total ∧ 1000 * count < 5 * total)) ↔
      (0.005 : ℚ) * (total : ℚ) ≤ (count : ℚ) := by
    rcases Nat.eq_zero_or_pos total with h0 | h0
    · subst h0
      simp
    · constructor
      · intro hna
        have h5 : ¬ 1000 * count < 5 * total := by
          intro hc
          exact hna ⟨h0, hc⟩
        have h5' : 5 * total ≤ 1000 * count := by omega
        have hq : (5 * total : ℚ) ≤ (1000 * count : ℚ) := by exact_mod_cast h5'
        rw [show (0.005 : ℚ) = 5 / 1000 by norm_num]
        rw [div_mul_eq_mul_div, div_le_iff₀ (by norm_num)]
        push_cast at hq ⊢
        linarith
      · intro hle hand
        have hc := hand.2
        have hq : (1000 * count : ℚ) < (5 * total : ℚ) := by exact_mod_cast hc
        rw [show (0.005 : ℚ) = 5 / 1000 by norm_num] at hle
        rw [div_mul_eq_mul_div, div_le_iff₀ (by norm_num)] at hle
        push_cast at hq hle
        linarith
  unfold is_meaningful_pattern
  by_cases h1 : pat.length ≤ 1
  · rw [if_pos h1]
    constructor
    · intro h
      exact absurd h (by simp)
    · intro hcontra
      exact absurd hcontra.1 (by omega)
  · rw [if_neg h1]
    by_cases h2 : 0 < total ∧ 1000 * count < 5 * total
    · rw [if_pos h2]
      constructor
      · intro h
        exact absurd h (by simp)
      · intro hcontra
        exact absurd h2 (hfreq.mpr hcontra.2.1)
    · rw [if_neg h2]
      by_cases h3 : pat ∈ genericPatterns
      · rw [if_pos h3]
        constructor
        · intro h
          exact absurd h (by simp)
        · intro hcontra
          exact absurd h3 hcontra.2.2
      · rw [if_neg h3]
        constructor
        · intro _
          exact ⟨by omega, hfreq.mp h2, h3⟩
        · intro _
          rfl

/-- C7: a counted token sequence is retained for the common-patterns
report iff it is meaningful (length over 1, frequency at least 0.5 percent
of the functions analyzed, not denylisted); the report is sorted by
descending count and holds at most the top 20: every retained entry is a
meaningful counted entry, and every meaningful counted entry is either
reported or crowded out by 20 entries of at least its count. -/
theorem c7_pattern_retention (fps : List FuncPatternInfo) :
    (topPatternsOf fps).length ≤ 20 ∧
    List.Sorted descByCount (topPatternsOf fps) ∧
    (∀ pc ∈ topPatternsOf fps, pc ∈ patternCountsOf fps ∧ 1 < pc.1.length ∧
      (0.005 : ℚ) * (fps.length : ℚ) ≤ (pc.2 : ℚ) ∧ pc.1 ∉ genericPatterns) ∧
    (∀ pc ∈ patternCountsOf fps, 1 < pc.1.length →
      (0.005 : ℚ) * (fps.length : ℚ) ≤ (pc.2 : ℚ) → pc.1 ∉ genericPatterns →
      pc ∈ topPatternsOf fps ∨
        ((topPatternsOf fps).length = 20 ∧
          ∀ qc ∈ topPatternsOf fps, pc.2 ≤ qc.2)) := by
  refine ⟨List.length_take_le 20 _, ?_, ?_, ?_⟩
  · unfold topPatternsOf sortDescByCount
    exact (List.sorted_insertionSort descByCount _).sublist
      (List.take_sublist 20 _)
  · intro pc hpc
    obtain ⟨hmem, hmean⟩ := mem_topPatternsOf hpc
    obtain ⟨hl, hf, hg⟩ := (is_meaningful_iff pc.1 pc.2 fps.length).mp hmean
    exact ⟨hmem, hl, hf, hg⟩
  · intro pc hmem hl hf hg
    have hmean : is_meaningful_pattern pc.1 pc.2 fps.length = true :=
      (is_meaningful_iff pc.1 pc.2 fps.length).mpr ⟨hl, hf, hg⟩
    have hfilter : pc ∈ (patternCountsOf fps).filter
        (fun qc => is_meaningful_pattern qc.1 qc.2 fps.length) :=
      List.mem_filter.mpr ⟨hmem, hmean⟩
    have hsortmem : pc ∈ sortDescByCount ((patternCountsOf fps).filter
        (fun qc => is_meaningful_pattern qc.1 qc.2 fps.length)) := by
      unfold sortDescByCount
      exact (List.mem_insertionSort descByCount).mpr hfilter
    by_cases hin : pc ∈ topPatternsOf fps
    · exact Or.inl hin
    · refine Or.inr ?_
      unfold topPatternsOf at hin ⊢
      set sorted := sortDescByCount ((patternCountsOf fps).filter
        (fun qc => is_meaningful_pattern qc.1 qc.2 fps.length)) with hsorted
      have hdrop : pc ∈ sorted.drop 20 := by
        rcases List.mem_append.mp
          ((List.take_append_drop 20 sorted).symm ▸ hsortmem) with h3 | h3
        · exact absurd h3 hin
        · exact h3
      have hlen : 21 ≤ sorted.length := by
        have hne : sorted.drop 20 ≠ [] := List.ne_nil_of_mem hdrop
        rcases Nat.lt_or_ge sorted.length 21 with h3 | h3
        · exfalso
          apply hne
          apply List.eq_nil_of_length_eq_zero
          rw [List.length_drop]
          omega
        · omega
      constructor
      · rw [List.length_take]
        omega
      · intro qc hqc
        have hsortedpw : List.Pairwise descByCount sorted := by
          rw [hsorted]
          unfold sortDescByCount
          exact List.sorted_insertionSort descByCount _
        have hpw := (List.pairwise_append.mp
          ((List.take_append_drop 20 sorted).symm ▸ hsortedpw)).2.2
        exact hpw qc hqc pc hdrop

/-- Witness for C7: the theorem applied at a concrete pattern list. -/
theorem c7_pattern_retention_witness :
    (topPatternsOf [⟨"f", "x.py", 1, ["RETURN", "RETURN"]⟩]).length ≤ 20 ∧
    List.Sorted descByCount
      (topPatternsOf [⟨"f", "x.py", 1, ["RETURN", "RETURN"]⟩]) ∧
    (∀ pc ∈ topPatternsOf [⟨"f", "x.py", 1, ["RETURN", "RETURN"]⟩],
      pc ∈ patternCountsOf [⟨"f", "x.py", 1, ["RETURN", "RETURN"]⟩] ∧
      1 < pc.1.length ∧
      (0.005 : ℚ) * (([⟨"f", "x.py", 1, ["RETURN", "RETURN"]⟩] :
        List FuncPatternInfo).length : ℚ) ≤ (pc.2 : ℚ) ∧
      pc.1 ∉ genericPatterns) ∧
    (∀ pc ∈ patternCountsOf [⟨"f", "x.py", 1, ["RETURN", "RETURN"]⟩],
      1 < pc.1.length →
      (0.005 : ℚ) * (([⟨"f", "x.py", 1, ["RETURN", "RETURN"]⟩] :
        List FuncPatternInfo).length : ℚ) ≤ (pc.2 : ℚ) →
      pc.1 ∉ genericPatterns →
      pc ∈ topPatternsOf [⟨"f", "x.py", 1, ["RETURN", "RETURN"]⟩] ∨
        ((topPatternsOf [⟨"f", "x.py", 1, ["RETURN", "RETURN"]⟩]).length = 20 ∧
          ∀ qc ∈ topPatternsOf [⟨"f", "x.py", 1, ["RETURN", "RETURN"]⟩],
            pc.2 ≤ qc.2)) :=
  c7_pattern_retention [⟨"f", "x.py", 1, ["RETURN", "RETURN"]⟩]

/-! ### Claim C10: nested function definitions -/

theorem count_filterMap {α β : Type} [DecidableEq α] [DecidableEq β]
    (f : α → Option β) (b : β) :
    ∀ l : List α, (l.filterMap f).count b = l.countP (fun a => f a == some b)
  | [] => rfl
  | a :: l => by
    have ih := count_filterMap f b l
    cases hfa : f a with
    | none => simp [List.filterMap_cons, hfa, List.countP_cons, ih]
    | some b2 =>
      by_cases hb : b2 = b
      · subst hb
        simp [List.filterMap_cons, hfa, List.countP_cons, List.count_cons, ih]
      · simp [List.filterMap_cons, hfa, List.countP_cons, List.count_cons, ih, hb]

theorem countP_mono_of_counts {α : Type} [DecidableEq α] {l1 l2 : List α}
    (h : ∀ x, l1.count x ≤ l2.count x) (p : α → Bool) :
    l1.countP p ≤ l2.countP p := by
  have hle : (l1 : Multiset α) ≤ (l2 : Multiset α) := by
    rw [Multiset.le_iff_count]
    intro a
    simpa [Multiset.coe_count] using h a
  have hc := Multiset.countP_le_of_le (fun a => p a = true) hle
  simpa [Multiset.coe_countP, Bool.decide_eq_true] using hc

mutual
theorem count_preorder_le : ∀ (f g : Tree), g ∈ preorder f →
    ∀ x : Tree, (preorder g).count x ≤ (preorder f).count x
  | .node k c, g, hg, x => by
    rw [preorder] at hg
    rcases List.mem_cons.mp hg with h | h
    · subst h
      exact Nat.le_refl _
    · have hle := count_preorderL_le c g h x
      rw [preorder, List.count_cons]
      exact Nat.le_trans hle (Nat.le_add_right _ _)
theorem count_preorderL_le : ∀ (ts : TreeList) (g : Tree), g ∈ preorderL ts →
    ∀ x : Tree, (preorder g).count x ≤ (preorderL ts).count x
  | .nil, g, hg, x => absurd hg (by simp [preorderL])
  | .cons t ts, g, hg, x => by
    rw [preorderL] at hg
    rw [preorderL, List.count_append]
    rcases List.mem_append.mp hg with h | h
    · have hle := count_preorder_le t g h x
      omega
    · have hle := count_preorderL_le ts g h x
      omega
end

mutual
theorem extract_mem_of_mem_preorder :
    ∀ (path : String) (tree : Tree) (nm : String) (ln : Nat) (c : TreeList),
      Tree.node (.functionDef nm ln) c ∈ preorder tree →
      PatternEntry.funcStructure nm path ln
        (patternOf (.node (.functionDef nm ln) c)) ∈ extractVisit path tree
  | path, .node k ch, nm, ln, c, hmem => by
    rw [preorder] at hmem
    rcases List.mem_cons.mp hmem with h | h
    · rw [← h]
      simp only [extractVisit]
      exact List.mem_cons_self _ _
    · have hrec := extract_memL_of_mem_preorderL path ch nm ln c h
      cases k <;> simp only [extractVisit] <;>
        first
        | exact hrec
        | exact List.mem_cons_of_mem _ hrec
theorem extract_memL_of_mem_preorderL :
    ∀ (path : String) (ts : TreeList) (nm : String) (ln : Nat) (c : TreeList),
      Tree.node (.functionDef nm ln) c ∈ preorderL ts →
      PatternEntry.funcStructure nm path ln
        (patternOf (.node (.functionDef nm ln) c)) ∈ extractVisitL path ts
  | _, .nil, _, _, _, hmem => absurd hmem (by simp [preorderL])
  | path, .cons t ts, nm, ln, c, hmem => by
    rw [preorderL] at hmem
    rw [extractVisitL]
    rcases List.mem_append.mp hmem with h | h
    · exact List.mem_append_left _
        (extract_mem_of_mem_preorder path t nm ln c h)
    · exact List.mem_append_right _
        (extract_memL_of_mem_preorderL path ts nm ln c h)
end

/-- The token count of a function pattern, transferred from the
breadth-first walk to the pre-order listing. -/
theorem patternOf_count_eq (t : Tree) (tok : String) :
    (patternOf t).count tok =
      (preorder t).countP (fun n => tokenOf n == some tok) := by
  unfold patternOf
  rw [((walk_perm t).filterMap tokenOf).count_eq]
  exact count_filterMap tokenOf tok (preorder t)

/-- C10: when a function definition lexically contains a nested function
definition, every token of the nested function's extracted sequence is
also counted in the enclosing function's sequence (the extractor walks the
full subtree), and both functions yield their own `function_structure`
entries. -/
theorem c10_nested_function_tokens (path : String) (tree : Tree)
    (nm nm2 : String) (ln ln2 : Nat) (c c2 : TreeList)
    (hf : Tree.node (.functionDef nm ln) c ∈ preorder tree)
    (hg : Tree.node (.functionDef nm2 ln2) c2 ∈ preorderL c) :
    (∀ tok : String, (patternOf (.node (.functionDef nm2 ln2) c2)).count tok ≤
        (patternOf (.node (.functionDef nm ln) c)).count tok) ∧
    PatternEntry.funcStructure nm path ln
      (patternOf (.node (.functionDef nm ln) c)) ∈ extract_patterns path tree ∧
    PatternEntry.funcStructure nm2 path ln2
      (patternOf (.node (.functionDef nm2 ln2) c2)) ∈
        extract_patterns path tree := by
  have hg_in_f : Tree.node (.functionDef nm2 ln2) c2 ∈
      preorder (Tree.node (.functionDef nm ln) c) := by
    rw [preorder]
    exact List.mem_cons_of_mem _ hg
  refine ⟨?_, ?_, ?_⟩
  · intro tok
    rw [patternOf_count_eq, patternOf_count_eq]
    exact countP_mono_of_counts
      (count_preorder_le (Tree.node (.functionDef nm ln) c) _ hg_in_f) _
  · exact extract_mem_of_mem_preorder path tree nm ln c hf
  · have hgt : Tree.node (.functionDef nm2 ln2) c2 ∈ preorder tree := by
      have h1 := count_preorder_le tree _ hf
        (Tree.node (.functionDef nm2 ln2) c2)
      have h2 : 0 < (preorder (Tree.node (.functionDef nm ln) c)).count
          (Tree.node (.functionDef nm2 ln2) c2) :=
        List.count_pos_iff.mpr hg_in_f
      exact List.count_pos_iff.mp (Nat.lt_of_lt_of_le h2 h1)
    exact extract_mem_of_mem_preorder path tree nm2 ln2 c2 hgt

/-- The nested function of the C10 witness: `def inner` containing an
`if`. -/
def c10Inner : Tree :=
  .node (.functionDef "inner" 2) (TreeList.ofList [.node .ifStmt TreeList.nil])

/-- The enclosing function of the C10 witness: `def outer` containing
`inner`. -/
def c10Outer : Tree :=
  .node (.functionDef "outer" 1) (TreeList.ofList [c10Inner])

/-- The module of the C10 witness. -/
def c10Module : Tree := .node .otherNode (TreeList.ofList [c10Outer])

/-- Witness for C10 at the concrete nested pair. -/
theorem c10_nested_function_tokens_witness :
    (∀ tok : String,
      (patternOf (.node (.functionDef "inner" 2)
        (TreeList.ofList [.node .ifStmt TreeList.nil]))).count tok ≤
      (patternOf (.node (.functionDef "outer" 1)
        (TreeList.ofList [c10Inner]))).count tok) ∧
    PatternEntry.funcStructure "outer" "w.py" 1
      (patternOf (.node (.functionDef "outer" 1) (TreeList.ofList [c10Inner]))) ∈
        extract_patterns "w.py" c10Module ∧
    PatternEntry.funcStructure "inner" "w.py" 2
      (patternOf (.node (.functionDef "inner" 2)
        (TreeList.ofList [.node .ifStmt TreeList.nil]))) ∈
        extract_patterns "w.py" c10Module :=
  c10_nested_function_tokens "w.py" c10Module "outer" "inner" 1 2
    (TreeList.ofList [c10Inner]) (TreeList.ofList [.node .ifStmt TreeList.nil])
    (by decide) (by decide)

/-- Witness for C4 at a concrete configuration and file set. -/
theorem c4_entry_point_never_raises_witness :
    ∃ r, (analyze_codebase_from_files true true false (fun _ => none)
      (initState true) [⟨"w.py", "x = 1\n", some (.node .otherNode TreeList.nil)⟩]
      ["complexity", "orphan", "patterns"]).2 = .ok r :=
  c4_entry_point_never_raises true true false (fun _ => none) (initState true)
    [⟨"w.py", "x = 1\n", some (.node .otherNode TreeList.nil)⟩]
    ["complexity", "orphan", "patterns"]

/-- Witness for C8 at a concrete radon oracle. -/
theorem c8_empty_fileset_zero_results_witness :
    analyze_codebase_from_files true true false (fun _ => none) (initState true)
      [] ["complexity", "orphan", "patterns"] =
    (initState true, .ok
      ⟨some (.result [] [] ⟨0, 0, 0, 0⟩),
       some (.result [] [] [] ⟨0, 0, 0⟩),
       some ⟨[], 0, [], 0, 0, 0, ⟨0, 0⟩⟩,
       none⟩) :=
  c8_empty_fileset_zero_results (fun _ => none)

/-- Witness for C9 at a concrete pattern, count and total. -/
theorem c9_denylist_redundant_witness :
    is_meaningful_pattern ["RETURN"] 1 1 = simplifiedMeaningful ["RETURN"] 1 1 :=
  c9_denylist_redundant ["RETURN"] 1 1

end CodeSensei
